import Mathlib

/-!
# A shallow embedding of the clisp interpreter core

This file embeds, in Lean 4, the parts of the `homedirectory/clisp`
interpreter that the verified claims are about:

* the value model (`Datum`, `ProcV`) from `types_oop.h` / `core.c`;
* the environment (`MalEnv_*` from `env.c`) as a store of frames indexed
  by allocation order, so that the pointer-based enclosing chain and the
  in-place mutation done by `MalEnv_put` are observable;
* the evaluator of the final step (`eval`, `eval_ast`, `eval_list`,
  `apply_proc`, `eval_application_tco`, `macroexpand`,
  `macroexpand_single`, the special forms `def!`, `defmacro!`, `let*`,
  `if`, `do`, `lambda`, `quote`, `quasiquote`, `macroexpand`, `try*`,
  and the built-ins `throw` / `exn-datum`), including the global
  last-failure flag (`g_lastfail`) and last-exception slot
  (`g_last_exn`) from `core.c`;
* the printer `pr_str` / `pr_list` from `printer.c`;
* the reader `tokenize` / `read_atom` / `read_form` / `read_list` from
  `reader.c`;
* a pointer-level model of `Atom_new` / `Atom_copy` / `Atom_set` /
  `Atom_eq` together with `throw` and `thrown_copy`, which is needed to
  reason about the identity of atoms that travel through the exception
  machinery.

The interpreter itself is a C `while` loop with recursion, so the
embedding is fuel-indexed: `exec fuel call st` runs one of the mutually
recursive interpreter functions, consuming one unit of fuel per call.
`Out.spin` reports fuel exhaustion (it has no C counterpart) and
`Out.stuck` marks undefined behaviour in the C source (NULL
dereference / out-of-bounds access), so that those paths are visibly
distinguished from ordinary results.
-/

namespace Clisp

/-- Embeds `enum LastFail` from `core.c`: records whether the most recent
failure was an `error(...)` or a `throw(...)`. -/
inductive LastFail where
  | lfNone
  | lfError
  | lfException
deriving DecidableEq, Repr

/-- Identifiers of the built-in procedures embedded here (the
`builtin_apply_t` function pointers from `core.c` that the claims
need). -/
inductive Builtin where
  | bThrow    -- lisp_throw
  | bExnDatum -- lisp_exn_datum
deriving DecidableEq, Repr

mutual

/-- Embeds `LispDatum` (`types_oop.h`): the tagged sum of runtime values.
`Number` holds a C `long`, modelled as `Int`; `Symbol` is identified by
its interned name (interning makes name equality coincide with pointer
equality); `Nil`/`True`/`False` are singletons, so one constructor
each.  Atoms are modelled separately (see `AtomModel`) because their
behaviour depends on pointer identity. -/
inductive Datum where
  | num (n : Int)
  | sym (s : String)
  | str (s : String)
  | nil
  | tru
  | fls
  | list (xs : List Datum)
  | proc (p : ProcV)
  | exn (payload : Datum)

/-- Embeds `struct Proc` (`types_oop.h`): name (`NULL` for lambdas), mandatory
argument count, variadic flag, declared parameter names, macro flag,
and either a built-in function pointer or a user body together with the
captured environment (as a frame index into the store). -/
inductive ProcV where
  | mk (name : Option String) (argc : Nat) (variadic : Bool)
       (params : List String) (macroFlag : Bool)
       (builtin : Option Builtin) (body : List Datum) (envId : Nat)

end

namespace ProcV

def name : ProcV → Option String
  | .mk n _ _ _ _ _ _ _ => n

def argc : ProcV → Nat
  | .mk _ a _ _ _ _ _ _ => a

def variadic : ProcV → Bool
  | .mk _ _ v _ _ _ _ _ => v

def params : ProcV → List String
  | .mk _ _ _ ps _ _ _ _ => ps

def macroFlag : ProcV → Bool
  | .mk _ _ _ _ m _ _ _ => m

def builtin : ProcV → Option Builtin
  | .mk _ _ _ _ _ b _ _ => b

def body : ProcV → List Datum
  | .mk _ _ _ _ _ _ bd _ => bd

def envId : ProcV → Nat
  | .mk _ _ _ _ _ _ _ e => e

/-- Embeds `Proc_isnamed`. -/
def isnamed (p : ProcV) : Bool := p.name.isSome

/-- Embeds `Proc_isbuiltin`. -/
def isbuiltin (p : ProcV) : Bool := p.builtin.isSome

/-- Embeds `Proc_set_name` (only the observable field update). -/
def set_name (p : ProcV) (s : String) : ProcV :=
  match p with
  | .mk _ a v ps m b bd e => .mk (some s) a v ps m b bd e

/-- Embeds Proc_set_macro from the source. -/
def set_macro (p : ProcV) : ProcV :=
  match p with
  | .mk n a v ps _ b bd e => .mk n a v ps true b bd e

/-- Embeds `Proc_name`: falls back to the interned symbol `*lambda*` for
unnamed procedures. -/
def nameStr (p : ProcV) : String := p.name.getD "*lambda*"

end ProcV

/-- Embeds `LispType_name` applied to the runtime type of a datum
(`LispDatum_type` composed with the name table in `core.c`). -/
def typeName : Datum → String
  | .num _ => "NUMBER"
  | .sym _ => "SYMBOL"
  | .str _ => "STRING"
  | .nil => "NIL"
  | .tru => "TRUE"
  | .fls => "FALSE"
  | .list _ => "LIST"
  | .proc _ => "PROCEDURE"
  | .exn _ => "EXCEPTION"

def Datum.isList : Datum → Bool
  | .list _ => true
  | _ => false

/-- One environment frame: the binding table (`env->binds`, a hash
table from interned symbols to values, observable as a finite map) and
the enclosing frame (`env->enclosing`, `none` at the root). -/
structure Frame where
  binds : List (String × Datum)
  enclosing : Option Nat
deriving Inhabited

/-- The interpreter state: the store of environment frames (pointers
become indices in allocation order) plus the globals of `core.c`:
`g_lastfail`, `g_last_exn.dtm`, and the text of the last `error(...)`
diagnostic (printed to stderr by `error`). -/
structure St where
  frames : List Frame
  lastfail : LastFail
  lastExn : Option Datum
  errMsg : Option String

/-- Embeds `error(...)` (`core.c`): set `g_lastfail = LF_ERROR` and print the
diagnostic. -/
def errorSt (st : St) (msg : String) : St :=
  { st with lastfail := .lfError, errMsg := some msg }

/-- The `BADSTX` macro: `error("bad syntax: " fmt "\n", ...)`. -/
def badstx (st : St) (msg : String) : St :=
  errorSt st ("bad syntax: " ++ msg ++ "\n")

/-- Embeds `throw(src, dtm)` (`core.c`): set `g_lastfail = LF_EXCEPTION` and
store a copy of the payload in `g_last_exn.dtm`.  `LispDatum_copy` is
structural on every variant modelled here, so the stored copy is the
payload itself. -/
def throwSt (st : St) (payload : Datum) : St :=
  { st with lastfail := .lfException, lastExn := some payload }

/-- Embeds `throwf(src, fmt, ...)`: `throw` with a freshly built `String`
payload. -/
def throwfSt (st : St) (msg : String) : St :=
  throwSt st (.str msg)

/-- Embeds `didthrow()` (`core.c`). -/
def didthrow (st : St) : Bool := st.lastfail = .lfException

/-- Embeds `MalEnv_new(enclosing)`: allocate a fresh empty frame; returns its
index and the new store. -/
def envNew (parent : Nat) (st : St) : Nat × St :=
  (st.frames.length,
   { st with frames := st.frames ++ [⟨[], some parent⟩] })

/-- The naming side effect of `MalEnv_put` (`env.c`): an unnamed
procedure being bound gets the binder's symbol as its name. -/
def nameIfUnnamedProc (id : String) (d : Datum) : Datum :=
  match d with
  | .proc p => if p.isnamed then d else .proc (p.set_name id)
  | _ => d

/-- Embeds `MalEnv_put(env, id, datum)`: bind (or rebind) `id` in frame `env`
only; returns the updated store and the datum actually stored (which
carries the naming side effect, since in C the caller keeps a pointer
to the same object). -/
def envPut (env : Nat) (id : String) (d : Datum) (st : St) : St × Datum :=
  let d' := nameIfUnnamedProc id d
  match (st.frames[env]? : Option Frame) with
  | none => (st, d')   -- unreachable: `env` is always a live frame
  | some fr =>
      let fr' : Frame :=
        { fr with binds := (id, d') :: fr.binds.filter (fun p => p.1 ≠ id) }
      ({ st with frames := st.frames.set env fr' }, d')

/-- Association-list lookup in one frame's binding table. -/
def lookupBind : List (String × Datum) → String → Option Datum
  | [], _ => none
  | (k, v) :: rest, id => if k = id then some v else lookupBind rest id

/-- Embeds `MalEnv_get(env, id)`: search the frame, then the enclosing chain.
The chain walk is bounded by the number of frames (frames only ever
point to earlier frames, so the bound is never hit in reachable
states). -/
def envGetAux (st : St) : Nat → Nat → String → Option Datum
  | 0, _, _ => none
  | steps + 1, env, id =>
      match (st.frames[env]? : Option Frame) with
      | none => none
      | some fr =>
          match lookupBind fr.binds id with
          | some v => some v
          | none =>
              match fr.enclosing with
              | none => none
              | some p => envGetAux st steps p id

def envGet (st : St) (env : Nat) (id : String) : Option Datum :=
  envGetAux st (st.frames.length + 1) env id

/-- Embeds `verify_proc_application(proc, args)` from the final
interpreter step: fails (raising via `throwf` with the procedure's name
as source) when too few arguments are given, or when a non-variadic
procedure receives too many. -/
def verify_proc_application (p : ProcV) (args : List Datum) (st : St) :
    Bool × St :=
  if args.length < p.argc ∨ (¬ p.variadic ∧ args.length > p.argc) then
    (false,
     throwfSt st
       ("expected at least " ++ toString p.argc ++ " arguments, but "
         ++ toString args.length ++ " were given"))
  else
    (true, st)

/-- Parameter binding of `apply_proc`, step 1: bind the `argc` mandatory
parameters positionally (`Arr_get(proc->params, i)` / `Arr_get(args, i)`
for `i < argc`), then, for a variadic procedure, bind the last declared
parameter to the list of the remaining arguments.  Returns `none` where
the C code would dereference a NULL `Arr_get` result (impossible for
procedures built by `eval_fnstar` once the arity check passed).
`bindMandatory` is the first loop (`for i < argc`), `bindParams` adds
the variadic rest binding. -/
def bindMandatory (penv : Nat) :
    Nat → List String → List Datum → St → Option St
  | 0, _, _, st => some st
  | n + 1, par :: ps, arg :: rest, st =>
      bindMandatory penv n ps rest (envPut penv par arg st).1
  | _ + 1, _, _, _ => none

def bindParams (p : ProcV) (args : List Datum) (penv : Nat) (st : St) :
    Option St :=
  match bindMandatory penv p.argc p.params args st with
  | none => none
  | some st =>
      if p.variadic then
        match (p.params[p.params.length - 1]? : Option String) with
        | none => none
        | some varPar =>
            some (envPut penv varPar (.list (args.drop p.argc)) st).1
      else
        some st

/-- Parameter binding of `eval_application_tco`: for **every** argument
index `i < args.len`, bind `Arr_get(proc->params, i)` to `args[i]` — the
loop runs over the argument count, not the parameter count, and there is
no rest-list construction.  `Arr_get` past the end of `params` returns
NULL, which `MalEnv_put` then dereferences: modelled as `none`. -/
def tcoBind (params : List String) (args : List Datum) (env : Nat)
    (st : St) : Option St :=
  match params, args with
  | _, [] => some st
  | [], _ :: _ => none
  | par :: ps, arg :: rest =>
      tcoBind ps rest env (envPut env par arg st).1

/-- Dispatch table of the built-in procedures modelled here, invoked by
`apply_proc` after the arity check (`proc->logic.apply(proc, args,
env)`). -/
def applyBuiltin (b : Builtin) (_proc : ProcV) (args : List Datum)
    (st : St) : Option Datum × St :=
  match b with
  | .bThrow =>
      -- lisp_throw: throw(NULL, arg0); return NULL
      match (args[0]? : Option Datum) with
      | some a => (none, throwSt st a)
      | none => (none, st)    -- unreachable after the arity check
  | .bExnDatum =>
      -- lisp_exn_datum: verify_proc_arg_type(..., 0, EXCEPTION);
      -- return Exception_datum(exn)
      match (args[0]? : Option Datum) with
      | some (.exn payload) => (some payload, st)
      | some _ =>
          (none, throwfSt st "bad arg no. 1: expected a EXCEPTION")
      | none => (none, st)    -- unreachable after the arity check

/-- Requests to the fuel-indexed interpreter `exec`: one constructor
per mutually recursive C function of the final evaluator (plus the
loops inside them, which consume interpreter calls of their own). -/
inductive Call where
  /-- One iteration of the `while` loop inside `eval(ast, env)`.  `env`
  is the function parameter (used for macro expansion) and `aenv` the
  current `apply_env` (rewritten by tail calls). -/
  | eval (ast : Datum) (env aenv : Nat)
  /-- The procedure-application part of the `eval` loop (lines after
  the special-form dispatch): evaluate the list, check the head is a
  procedure, then either rewrite the loop state (TCO) or call
  `apply_proc`. -/
  | eval_application (l : List Datum) (env aenv : Nat)
  /-- Body of `eval_ast(datum, env)`. -/
  | eval_ast (d : Datum) (env : Nat)
  /-- Body of `eval_list(list, env)`. -/
  | eval_list (xs : List Datum) (env : Nat)
  /-- Body of `apply_proc(proc, args, env)`. -/
  | apply_proc (p : ProcV) (args : List Datum) (env : Nat)
  /-- Body evaluation loop of `apply_proc` (all but the last form are
  evaluated and discarded; a NULL result there is passed to
  `LispDatum_free`, i.e. undefined behaviour). -/
  | apply_body (body : List Datum) (penv : Nat)
  /-- Body of `eval_application_tco(proc, args, env)`. -/
  | eval_application_tco (p : ProcV) (args : List Datum) (aenv : Nat)
  /-- Body loop of `eval_application_tco`: evaluate all but the last
  body form (checking for NULL), return the last one unevaluated. -/
  | tco_body (body : List Datum) (aenv : Nat)
  /-- Body of `macroexpand(ast, env)`. -/
  | macroexpand (ast : Datum) (env : Nat)
  /-- Body of `macroexpand_single(ast, env)`. -/
  | macroexpand_single (ast : Datum) (env : Nat)
  /-- Body of `eval_def(list, env)`; `xs` is the whole form. -/
  | eval_def (xs : List Datum) (env : Nat)
  /-- Body of eval_defmacro_form from the source (the `defmacro!` form). -/
  | eval_defmacro_form (xs : List Datum) (env : Nat)
  /-- Body of `eval_letstar(list, env)`. -/
  | eval_letstar (xs : List Datum) (env : Nat)
  /-- Binding loop of `eval_letstar` over the `(id val)` pairs. -/
  | let_binds (binds : List Datum) (letEnv : Nat)
  /-- Body of `eval_if(ast_list, env)`; returns the (unevaluated)
  chosen branch. -/
  | eval_if (xs : List Datum) (env : Nat)
  /-- Body of `eval_do(list, env)`. -/
  | eval_do (xs : List Datum) (env : Nat)
  /-- Expression loop of `eval_do`. -/
  | do_items (items : List Datum) (env : Nat)
  /-- Body of `eval_fnstar(list, env)` (the `lambda` special form). -/
  | eval_fnstar (xs : List Datum) (env : Nat)
  /-- Body of `eval_quote(list, env)`. -/
  | eval_quote (xs : List Datum) (env : Nat)
  /-- Body of `eval_quasiquote(list, env)`. -/
  | eval_quasiquote (xs : List Datum) (env : Nat)
  /-- Body of `eval_quasiquote_list(list, env, splice)`; `xs` are the
  elements of the quasiquoted list. -/
  | eval_quasiquote_list (xs : List Datum) (env : Nat)
  /-- Element loop of `eval_quasiquote_list`, with the accumulated
  output list. -/
  | qq_items (items : List Datum) (env : Nat) (acc : List Datum)
  /-- Body of `eval_unquote(list, env)`. -/
  | eval_unquote (xs : List Datum) (env : Nat)
  /-- Body of `eval_splice_unquote(list, env)`. -/
  | eval_splice_unquote (xs : List Datum) (env : Nat)
  /-- Body of `eval_macroexpand(ast_list, env)` (the `macroexpand`
  special form). -/
  | eval_macroexpand (xs : List Datum) (env : Nat)
  /-- Body of `eval_try_star(ast_list, env)`. -/
  | eval_try_star (xs : List Datum) (env : Nat)

def Datum.isSym : Datum → Bool
  | .sym _ => true
  | _ => false

/-- Modelled from the spec (the implementation of `str_escape` is not
among the provided sources; `utils.h` only declares it): strings are
printed readably "surrounded by double quotes with `\"`, `\\`, and
newline escaped". -/
def escChar (c : Char) : List Char :=
  if c = '"' then ['\\', '"']
  else if c = '\\' then ['\\', '\\']
  else if c = '\n' then ['\\', 'n']
  else [c]

def strEscape (s : String) : String :=
  String.mk (s.data.map escChar).flatten

/-- Embeds `pr_str(datum, print_readably)` from `printer.c`, fuel-indexed
because the C recursion follows the (arbitrarily nested) datum.  The
number case follows `_Number_val_tos` (sign, then decimal digits),
which agrees with decimal `toString`.  Any fuel larger than the nesting
depth gives the C result. -/
def prStrF : Nat → Datum → Bool → String
  | 0, _, _ => ""
  | fuel + 1, d, readably =>
      match d with
      | .num n => toString n
      | .sym s => s
      | .list xs =>
          "(" ++ String.intercalate " "
            (xs.map (fun x => prStrF fuel x readably)) ++ ")"
      | .str s => if readably then "\"" ++ strEscape s ++ "\"" else s
      | .nil => "nil"
      | .tru => "true"
      | .fls => "false"
      | .proc p =>
          "#<" ++ (if p.macroFlag then "macro" else "procedure")
            ++ (match p.name with
                | some nm => ":" ++ nm
                | none => "") ++ ">"
      | .exn _ => "#<exn>"

/-- Embeds `pr_list(list, print_readably)` from `printer.c`: the
space-separated element prints wrapped in parentheses (the C code adds
a space after every element and drops the final one).  Fuel-indexed
like `prStrF`. -/
def prListF (fuel : Nat) (xs : List Datum) (readably : Bool) : String :=
  "(" ++ String.intercalate " "
    (xs.map (fun x => prStrF fuel x readably)) ++ ")"

/-- Embeds the parameter walk of `eval_fnstar`: count the mandatory
parameters, and on a `&` require exactly one following parameter, the
variadic rest name.  `none` is the "1 parameter expected after '&'"
error (the elements are already known to be symbols at this point). -/
def buildParams : List Datum → Option (Nat × Bool × List String)
  | [] => some (0, false, [])
  | .sym s :: rest =>
      if s = "&" then
        match rest with
        | [.sym r] => some (0, true, [r])
        | _ => none
      else
        (buildParams rest).map (fun (n, va, ps) => (n + 1, va, s :: ps))
  | _ :: _ => none

/-- Results of `exec`.  C functions communicate results as a
`LispDatum*` (NULL meaning failure, with `g_lastfail` holding the
kind); the loop-helper calls return a list, macro expansion reports
whether the input was rewritten (pointer comparison in C), and
`eval_quasiquote_list` reports the splice flag. -/
inductive Out where
  /-- A `LispDatum*` result. -/
  | od (d : Datum) (st : St)
  /-- A `List*` result (from `eval_list` and the loop helpers). -/
  | ods (xs : List Datum) (st : St)
  /-- Result of `macroexpand` / `macroexpand_single`: the datum plus
  whether it differs from the input (in C: pointer inequality). -/
  | oexp (d : Datum) (changed : Bool) (st : St)
  /-- Result of `eval_quasiquote_list`: the datum plus the
  `*splice` flag. -/
  | osp (d : Datum) (splice : Bool) (st : St)
  /-- A NULL result; `st.lastfail` distinguishes error from
  exception. -/
  | fail (st : St)
  /-- Undefined behaviour in the C source (NULL dereference). -/
  | stuck
  /-- Fuel exhausted (no C counterpart). -/
  | spin

/-- The fuel-indexed interpreter.  Each constructor of `Call` is the
body of the corresponding C function from the final interpreter step
(see the `Call` doc comments); every call of one interpreter function
by another consumes one unit of fuel. -/
def exec : Nat → Call → St → Out
  | 0, _, _ => .spin
  | fuel + 1, c, st =>
    match c with
    | .eval ast env aenv =>
        match ast with
        | .list _ =>
            match exec fuel (.macroexpand ast env) st with
            | .oexp expanded changed st1 =>
                if changed && !expanded.isList then
                  exec fuel (.eval_ast expanded env) st1
                else
                  match expanded with
                  | .list [] => .fail (badstx st1 "empty application ()")
                  | .list l =>
                      match l with
                      | [] => .stuck
                      | head :: _ =>
                          match head with
                          | .sym s =>
                              if s = "def!" then
                                exec fuel (.eval_def l aenv) st1
                              else if s = "defmacro!" then
                                exec fuel (.eval_defmacro_form l aenv) st1
                              else if s = "let*" then
                                exec fuel (.eval_letstar l aenv) st1
                              else if s = "if" then
                                -- replace the AST with the chosen
                                -- branch and continue the loop
                                match exec fuel (.eval_if l aenv) st1 with
                                | .od branch st2 =>
                                    exec fuel (.eval branch env aenv) st2
                                | .fail st2 => .fail st2
                                | .spin => .spin
                                | _ => .stuck
                              else if s = "do" then
                                exec fuel (.eval_do l aenv) st1
                              else if s = "lambda" then
                                exec fuel (.eval_fnstar l aenv) st1
                              else if s = "quote" then
                                exec fuel (.eval_quote l aenv) st1
                              else if s = "quasiquote" then
                                exec fuel (.eval_quasiquote l aenv) st1
                              else if s = "macroexpand" then
                                exec fuel (.eval_macroexpand l aenv) st1
                              else if s = "try*" then
                                exec fuel (.eval_try_star l aenv) st1
                              else
                                exec fuel (.eval_application l env aenv) st1
                          | _ => exec fuel (.eval_application l env aenv) st1
                  | _ => .stuck   -- unchanged expansion of a list is a list
            | .fail st1 => .fail st1
            | .spin => .spin
            | _ => .stuck
        | _ => exec fuel (.eval_ast ast aenv) st
    | .eval_application l env aenv =>
        match exec fuel (.eval_list l aenv) st with
        | .ods evaled st1 =>
            match evaled with
            | [] => .stuck    -- unreachable: `l` is non-empty
            | f :: args =>
                match f with
                | .proc p =>
                    -- TCO only for non-builtin named procedures
                    if !p.isbuiltin && p.isnamed then
                      let (newAenv, st2) := envNew p.envId st1
                      match exec fuel
                              (.eval_application_tco p args newAenv) st2 with
                      | .od bodyLast st3 =>
                          exec fuel (.eval bodyLast env newAenv) st3
                      | .fail st3 => .fail st3
                      | .spin => .spin
                      | _ => .stuck
                    else
                      exec fuel (.apply_proc p args env) st1
                | _ =>
                    .fail (throwfSt st1 "application: expected a procedure")
        | .fail st1 => .fail st1
        | .spin => .spin
        | _ => .stuck
    | .eval_ast d env =>
        match d with
        | .sym s =>
            match envGet st env s with
            | some v => .od v st
            | none =>
                .fail (throwfSt st
                  ("symbol binding '" ++ s ++ "' not found"))
        | .list xs =>
            match exec fuel (.eval_list xs env) st with
            | .ods out st1 => .od (.list out) st1
            | .fail st1 => .fail st1
            | .spin => .spin
            | _ => .stuck
        | _ => .od d st   -- LispDatum_copy: structural on these variants
    | .eval_list xs env =>
        match xs with
        | [] => .ods [] st
        | x :: rest =>
            match exec fuel (.eval x env env) st with
            | .od v st1 =>
                match exec fuel (.eval_list rest env) st1 with
                | .ods out st2 => .ods (v :: out) st2
                | .fail st2 => .fail st2
                | .spin => .spin
                | _ => .stuck
            | .fail st1 => .fail st1
            | .spin => .spin
            | _ => .stuck
    | .apply_proc p args _env =>
        match verify_proc_application p args st with
        | (false, st1) => .fail st1
        | (true, st1) =>
            match p.builtin with
            | some b =>
                match applyBuiltin b p args st1 with
                | (some d, st2) => .od d st2
                | (none, st2) => .fail st2
            | none =>
                let (penv, st2) := envNew p.envId st1
                match bindParams p args penv st2 with
                | none => .stuck
                | some st3 => exec fuel (.apply_body p.body penv) st3
    | .apply_body body penv =>
        match body with
        | [] => .stuck     -- FATAL("empty body")
        | [last] => exec fuel (.eval last penv penv) st
        | d :: rest =>
            match exec fuel (.eval d penv penv) st with
            | .od _ st1 => exec fuel (.apply_body rest penv) st1
            | .fail _ => .stuck   -- LispDatum_free(NULL)
            | .spin => .spin
            | _ => .stuck
    | .eval_application_tco p args aenv =>
        match verify_proc_application p args st with
        | (false, st1) => .fail st1
        | (true, st1) =>
            match tcoBind p.params args aenv st1 with
            | none => .stuck
            | some st2 => exec fuel (.tco_body p.body aenv) st2
    | .tco_body body aenv =>
        match body with
        | [] => .stuck     -- body->head is NULL; node->next dereferences it
        | [last] => .od last st   -- returned unevaluated to the eval loop
        | d :: rest =>
            match exec fuel (.eval d aenv aenv) st with
            | .od _ st1 => exec fuel (.tco_body rest aenv) st1
            | .fail st1 => .fail st1
            | .spin => .spin
            | _ => .stuck
    | .macroexpand ast env =>
        match exec fuel (.macroexpand_single ast env) st with
        | .oexp d true st1 =>
            match exec fuel (.macroexpand d env) st1 with
            | .oexp d2 _ st2 => .oexp d2 true st2
            | .fail st2 => .fail st2
            | .spin => .spin
            | _ => .stuck
        | .oexp _ false st1 => .oexp ast false st1
        | .fail st1 => .fail st1
        | .spin => .spin
        | _ => .stuck
    | .macroexpand_single ast env =>
        match ast with
        | .list (h :: t) =>
            match h with
            | .sym s =>
                match envGet st env s with
                | some (.proc p) =>
                    if p.macroFlag then
                      match exec fuel (.apply_proc p t env) st with
                      | .od d st1 => .oexp d true st1
                      | .fail st1 => .fail st1
                      | .spin => .spin
                      | _ => .stuck
                    else .oexp ast false st
                | _ => .oexp ast false st
            | _ => .oexp ast false st
        | _ => .oexp ast false st
    | .eval_def xs env =>
        let argc := xs.length - 1
        if argc ≠ 2 then
          .fail (badstx st ("def! expects 2 arguments, but "
            ++ toString argc ++ " were given"))
        else
          match (xs[1]? : Option Datum) with
          | some (.sym id) =>
              match (xs[2]? : Option Datum) with
              | some expr =>
                  match exec fuel (.eval expr env env) st with
                  | .od v st1 =>
                      -- Proc_set_name for an unnamed procedure result
                      let v' := nameIfUnnamedProc id v
                      let (st2, v2) := envPut env id v' st1
                      .od v2 st2
                  | .fail st1 => .fail st1
                  | .spin => .spin
                  | _ => .stuck
              | none => .stuck
          | some d =>
              .fail (badstx st
                ("def! expects a symbol as a 2nd argument, but "
                  ++ typeName d ++ " was given"))
          | none => .stuck
    | .eval_defmacro_form xs env =>
        let argc := xs.length - 1
        if argc ≠ 2 then
          .fail (badstx st ("defmacro! expects 2 arguments, but "
            ++ toString argc ++ " were given"))
        else
          match (xs[1]? : Option Datum) with
          | some (.sym id) =>
              match (xs[2]? : Option Datum) with
              | some arg2 =>
                  match arg2 with
                  | .list (Datum.sym "lambda" :: _) =>
                      match exec fuel (.eval arg2 env env) st with
                      | .od v st1 =>
                          match v with
                          | .proc p =>
                              let v' := Datum.proc p.set_macro
                              let (st2, v2) := envPut env id v' st1
                              .od v2 st2
                          | _ =>
                              .fail (badstx st1
                                "defmacro!: 2nd arg must evaluate to a procedure")
                      | .fail st1 => .fail st1
                      | .spin => .spin
                      | _ => .stuck
                  | _ =>
                      .fail (badstx st
                        "defmacro!: 2nd arg must be an lambda expression")
              | none => .stuck
          | some d =>
              .fail (badstx st ("defmacro!: 1st arg must be a symbol, but was "
                ++ typeName d))
          | none => .stuck
    | .eval_letstar xs env =>
        let argc := xs.length - 1
        if argc ≠ 2 then
          .fail (badstx st ("let* expects 2 arguments, but "
            ++ toString argc ++ " were given"))
        else
          match (xs[1]? : Option Datum) with
          | some (.list binds) =>
              if binds.isEmpty then
                .fail (badstx st "let* expects a non-empty list of bindings")
              else
                match (xs[2]? : Option Datum) with
                | some expr =>
                    let (letEnv, st1) := envNew env st
                    match exec fuel (.let_binds binds letEnv) st1 with
                    | .ods _ st2 => exec fuel (.eval expr letEnv letEnv) st2
                    | .fail st2 => .fail st2
                    | .spin => .spin
                    | _ => .stuck
                | none => .stuck
          | some d =>
              .fail (badstx st
                ("let* expects a list as a 2nd argument, but "
                  ++ typeName d ++ " was given"))
          | none => .stuck
    | .let_binds binds letEnv =>
        match binds with
        | [] => .ods [] st
        | b :: rest =>
            match b with
            | .list bl =>
                if bl.length ≠ 2 then
                  .fail (badstx st ("let*: bad binding form: "
                    ++ prListF fuel bl true))
                else
                  match (bl[0]? : Option Datum) with
                  | some (.sym bsym) =>
                      match (bl[1]? : Option Datum) with
                      | some vexpr =>
                          match exec fuel (.eval vexpr letEnv letEnv) st with
                          | .od v st1 =>
                              exec fuel (.let_binds rest letEnv)
                                (envPut letEnv bsym v st1).1
                          | .fail st1 => .fail st1
                          | .spin => .spin
                          | _ => .stuck
                      | none => .stuck
                  | some d =>
                      .fail (badstx st
                        ("let*: bad binding form (expected a symbol to be bound, but was "
                          ++ typeName d ++ ")"))
                  | none => .stuck
            | _ => .fail (badstx st "let*: expected a list of bindings")
    | .eval_if xs env =>
        let argc := xs.length - 1
        if argc < 2 then
          .fail (badstx st ("if expects at least 2 arguments, but "
            ++ toString argc ++ " were given"))
        else if argc > 3 then
          .fail (badstx st ("if expects at most 3 arguments, but "
            ++ toString argc ++ " were given"))
        else
          match (xs[1]? : Option Datum) with
          | some cond =>
              match exec fuel (.eval cond env env) st with
              | .od cv st1 =>
                  -- truthy iff neither nil nor false
                  match cv with
                  | .nil | .fls =>
                      if argc = 3 then
                        match (xs[3]? : Option Datum) with
                        | some e => .od e st1
                        | none => .stuck
                      else .od .nil st1
                  | _ =>
                      match (xs[2]? : Option Datum) with
                      | some t => .od t st1
                      | none => .stuck
              | .fail st1 => .fail st1
              | .spin => .spin
              | _ => .stuck
          | none => .stuck
    | .eval_do xs env =>
        let argc := xs.length - 1
        if argc = 0 then
          .fail (badstx st "do expects at least 1 argument")
        else exec fuel (.do_items (xs.drop 1) env) st
    | .do_items items env =>
        match items with
        | [] => .stuck     -- unreachable: at least one expression
        | [last] => exec fuel (.eval last env env) st
        | d :: rest =>
            match exec fuel (.eval d env env) st with
            | .od _ st1 => exec fuel (.do_items rest env) st1
            | .fail st1 => .fail st1
            | .spin => .spin
            | _ => .stuck
    | .eval_fnstar xs env =>
        let argc := xs.length - 1
        if argc < 2 then
          .fail (badstx st "lambda: cannot have empty body")
        else
          match (xs[1]? : Option Datum) with
          | some (.list params) =>
              match params.find? (fun d => !d.isSym) with
              | some bad =>
                  .fail (badstx st
                    ("lambda bad parameter list: expected a list of symbols, but "
                      ++ typeName bad ++ " was found in the list"))
              | none =>
                  match buildParams params with
                  | none =>
                      .fail (badstx st
                        "lambda bad parameter list: 1 parameter expected after '&'")
                  | some (n, va, ps) =>
                      .od (.proc (.mk none n va ps false none
                        (xs.drop 2) env)) st
          | some _ =>
              .fail (badstx st "lambda: bad syntax at parameter declaration")
          | none => .stuck
    | .eval_quote xs _env =>
        let argc := xs.length - 1
        if argc ≠ 1 then
          .fail (badstx st ("quote expects 1 argument, but "
            ++ toString argc ++ " were given"))
        else
          match (xs[1]? : Option Datum) with
          | some d => .od d st
          | none => .stuck
    | .eval_unquote xs env =>
        let argc := xs.length - 1
        if argc ≠ 1 then
          .fail (badstx st ("unquote expects 1 argument, but "
            ++ toString argc ++ " were given"))
        else
          match (xs[1]? : Option Datum) with
          | some arg => exec fuel (.eval arg env env) st
          | none => .stuck
    | .eval_splice_unquote xs env =>
        let argc := xs.length - 1
        if argc ≠ 1 then
          .fail (badstx st ("splice-unquote expects 1 argument, but "
            ++ toString argc ++ " were given"))
        else
          match (xs[1]? : Option Datum) with
          | some arg =>
              match exec fuel (.eval arg env env) st with
              | .od v st1 =>
                  if v.isList then .od v st1
                  else
                    .fail (badstx st1
                      ("splice-unquote: resulting value must be a list, but was "
                        ++ typeName v))
              | .fail st1 => .fail st1
              | .spin => .spin
              | _ => .stuck
          | none => .stuck
    | .eval_quasiquote xs env =>
        let argc := xs.length - 1
        if argc ≠ 1 then
          .fail (badstx st ("quasiquote expects 1 argument, but "
            ++ toString argc ++ " were given"))
        else
          match (xs[1]? : Option Datum) with
          | some ast =>
              match ast with
              | .list [] => .od ast st
              | .list (h :: t) =>
                  match h with
                  | .sym "splice-unquote" =>
                      .fail (badstx st
                        "splice-unquote: illegal context within quasiquote (nothing to splice into)")
                  | _ =>
                      match exec fuel
                              (.eval_quasiquote_list (h :: t) env) st with
                      | .osp d _ st1 => .od d st1
                      | .fail st1 => .fail st1
                      | .spin => .spin
                      | _ => .stuck
              | _ => .od ast st
          | none => .stuck
    | .eval_quasiquote_list xs env =>
        match xs with
        | [] => .osp (.list []) false st
        | h :: t =>
            match h with
            | .sym "unquote" =>
                match exec fuel (.eval_unquote (h :: t) env) st with
                | .od d st1 => .osp d false st1
                | .fail st1 => .fail st1
                | .spin => .spin
                | _ => .stuck
            | .sym "splice-unquote" =>
                match exec fuel (.eval_splice_unquote (h :: t) env) st with
                | .od d st1 => .osp d true st1
                | .fail st1 => .fail st1
                | .spin => .spin
                | _ => .stuck
            | _ => exec fuel (.qq_items (h :: t) env []) st
    | .qq_items items env acc =>
        match items with
        | [] => .osp (.list acc) false st
        | d :: rest =>
            match d with
            | .list ys =>
                match exec fuel (.eval_quasiquote_list ys env) st with
                | .osp ev sp st1 =>
                    if sp then
                      match ev with
                      | .list es =>
                          exec fuel (.qq_items rest env (acc ++ es)) st1
                      | _ => .stuck
                    else
                      exec fuel (.qq_items rest env (acc ++ [ev])) st1
                | .fail st1 => .fail st1
                | .spin => .spin
                | _ => .stuck
            | _ => exec fuel (.qq_items rest env (acc ++ [d])) st
    | .eval_macroexpand xs env =>
        let argc := xs.length - 1
        if argc ≠ 1 then
          .fail (badstx st ("macroexpand expects 1 argument, but "
            ++ toString argc ++ " were given"))
        else
          match (xs[1]? : Option Datum) with
          | some arg =>
              match exec fuel (.macroexpand arg env) st with
              | .oexp d _ st1 => .od d st1
              | .fail st1 => .fail st1
              | .spin => .spin
              | _ => .stuck
          | none => .stuck
    | .eval_try_star xs env =>
        let argc := xs.length - 1
        if argc ≠ 2 then
          .fail (badstx st ("try* expects 2 arguments, but "
            ++ toString argc ++ " were given"))
        else
          match (xs[1]? : Option Datum), (xs[2]? : Option Datum) with
          | some expr1,
            some (.list [Datum.sym "catch*", Datum.sym s, expr2]) =>
              match exec fuel (.eval expr1 env env) st with
              | .od v st1 => .od v st1
              | .fail st1 =>
                  if didthrow st1 then
                    match st1.lastExn with
                    | some payload =>
                        -- thrown_copy(): a fresh Exception wrapping a
                        -- copy of g_last_exn.dtm
                        let (cenv, st2) := envNew env st1
                        let (st3, _) := envPut cenv s (.exn payload) st2
                        exec fuel (.eval expr2 cenv cenv) st3
                    | none => .stuck   -- g_last_exn.dtm is NULL
                  else .fail st1
              | .spin => .spin
              | _ => .stuck
          | some _, some _ =>
              .fail (badstx st "try* expects (catch* SYMBOL EXPR) as 2nd arg")
          | _, _ => .stuck

/-- Entry into `eval(ast, env)`: on entry `apply_env` equals the `env`
parameter. -/
def evalTop (fuel : Nat) (ast : Datum) (env : Nat) (st : St) : Out :=
  exec fuel (.eval ast env env) st

/-- Builds a built-in procedure value, as `Proc_builtin(sym, argc,
variadic, funp)` does (its `env` field is NULL; the frame index is a
dummy that is never read because built-ins take the `else` branch of
the TCO test). -/
def builtinProc (nm : String) (argc : Nat) (va : Bool) (b : Builtin) :
    ProcV :=
  .mk (some nm) argc va [] false (some b) [] 0

/-- The initial state: one root frame with the singleton bindings made
by `main` (`nil`, `true`, `false`) plus the built-ins from
`core_def_procs` that are modelled here (`throw`, `exn-datum`), and
cleared failure globals. -/
def rootSt : St :=
  { frames := [⟨[("nil", .nil), ("true", .tru), ("false", .fls),
                 ("throw", .proc (builtinProc "throw" 1 false .bThrow)),
                 ("exn-datum", .proc (builtinProc "exn-datum" 1 false .bExnDatum))],
               none⟩],
    lastfail := .lfNone, lastExn := none, errMsg := none }

/-- The test of `macroexpand_single`: a non-empty list whose head is a
symbol bound in the environment to a procedure with the macro flag set.
Exactly when this is false, `macroexpand_single` returns its input
unchanged. -/
def isMacroCall (st : St) (env : Nat) (ast : Datum) : Bool :=
  match ast with
  | .list (.sym s :: _) =>
      match envGet st env s with
      | some (.proc p) => p.macroFlag
      | _ => false
  | _ => false

/-- Program text of spec scenario 6:
`(try* (throw "boom") (catch* e (exn-datum e)))`. -/
def boomProg : Datum :=
  .list [.sym "try*", .list [.sym "throw", .str "boom"],
         .list [.sym "catch*", .sym "e",
                .list [.sym "exn-datum", .sym "e"]]]

/-- Program text `(def! f (lambda (& rest) rest))`: a *named* variadic
user procedure, so that its applications take the TCO path. -/
def c2def : Datum :=
  .list [.sym "def!", .sym "f",
         .list [.sym "lambda", .list [.sym "&", .sym "rest"],
                .sym "rest"]]

/-- Program text `((lambda () (def! q 1)))` from the spec's
testable-properties section. -/
def c8prog : Datum :=
  .list [.list [.sym "lambda", .list [],
                .list [.sym "def!", .sym "q", .num 1]]]

/-- A macro procedure `(lambda (x) x)` with the macro flag set and the
name `m`, as `(defmacro! m (lambda (x) x))` produces. -/
def mProc : ProcV :=
  .mk (some "m") 1 false ["x"] true none [.sym "x"] 0

/-- A root-like state in which the symbol `m` is bound to the macro
`mProc` (the state reached after `(defmacro! m (lambda (x) x))`, with
the store trimmed to the root frame). -/
def stMacro : St :=
  { frames := [⟨[("m", .proc mProc),
                 ("nil", .nil), ("true", .tru), ("false", .fls)], none⟩],
    lastfail := .lfNone, lastExn := none, errMsg := none }

/-! ## Reader (`reader.c`)

The reader in `src/reader.c`: `tokenize` splits on whitespace and
parentheses, `read_atom` recognises integers and symbols (with explicit
`TODO` markers in the source for `nil`, `true`, `false` and strings),
and `read_form` / `read_list` parse nested lists. -/

/-- C `isspace` in the default locale (used by `tokenize` to skip
separators). -/
def isspaceC (c : Char) : Bool :=
  c = ' ' || c = '\t' || c = '\n' || c = '\x0b' || c = '\x0c' || c = '\r'

/-- The stop set of `parse_until` inside `tokenize`:
`WHITESPACE_CHARS "()"`. -/
def tokStop (c : Char) : Bool :=
  c = ' ' || c = '\t' || c = '\n' || c = '\r' || c = '(' || c = ')'

/-- Characters of `SYMBOL_INV_CHARS` (`WHITESPACE_CHARS "[]{}('\"`,;)"`),
which may not start a symbol token. -/
def symbolInvChar (c : Char) : Bool :=
  c = ' ' || c = '\t' || c = '\n' || c = '\r' || c = '[' || c = ']'
    || c = Char.ofNat 123 || c = Char.ofNat 125 || c = '('
    || c = Char.ofNat 39 || c = Char.ofNat 34 || c = Char.ofNat 96
    || c = ',' || c = ';' || c = ')'

/-- Embeds `tokenize(str)`: skip whitespace; `(` and `)` are one-character
tokens; anything else runs to the next whitespace or parenthesis
(`parse_until`).  Fuel-indexed (each step consumes at least one
character, so `length + 1` fuel always suffices). -/
def tokenizeF : Nat → List Char → List (List Char)
  | 0, _ => []
  | _ + 1, [] => []
  | fuel + 1, c :: rest =>
      if isspaceC c then tokenizeF fuel rest
      else if c = '(' || c = ')' then [c] :: tokenizeF fuel rest
      else
        let tok := (c :: rest).takeWhile (fun ch => !tokStop ch)
        tok :: tokenizeF fuel (List.drop tok.length (c :: rest))

def tokenize (s : List Char) : List (List Char) :=
  tokenizeF (s.length + 1) s

def isdigitC (c : Char) : Bool := '0' ≤ c && c ≤ '9'

/-- Decimal digit-prefix accumulation of `strtol(token, NULL, 10)`
(trailing non-digits are ignored, as `strtol` stops at the first
non-digit). -/
def strtolAux : List Char → Int → Int
  | [], acc => acc
  | c :: rest, acc =>
      if isdigitC c then strtolAux rest (acc * 10 + (c.toNat - 48))
      else acc

def strtol10 : List Char → Int
  | c :: rest =>
      if c = '-' then - strtolAux rest 0
      else if c = '+' then strtolAux rest 0
      else strtolAux (c :: rest) 0
  | [] => 0

/-- Embeds `read_atom(token)`: an integer when the token starts with a
digit (or `-` followed by a digit), a symbol when the first character
is not in `SYMBOL_INV_CHARS`, otherwise the "Unknown atom" failure.
The source carries `TODO nil / TODO false / TODO true / TODO string`
markers at exactly this point. -/
def read_atom (token : List Char) : Option Datum :=
  match token with
  | [] => none
  | t0 :: rest =>
      if isdigitC t0 ||
         (t0 = '-' && (match rest with
                       | r :: _ => isdigitC r
                       | [] => false)) then
        some (.num (strtol10 (t0 :: rest)))
      else if !symbolInvChar t0 then
        some (.sym (String.mk (t0 :: rest)))
      else none

/-- Requests of the token-stream parser: `read_form` and `read_list`
from `reader.c` (mutually recursive, so fuel-indexed like `exec`). -/
inductive RCall where
  | form (toks : List (List Char))
  | list (toks : List (List Char)) (acc : List Datum)

/-- Embeds `read_form` / `read_list`: a `(` opens a list parsed until the
matching `)` (failing on exhaustion: "Unclosed list"); a leading `)` is
the "Unopened list" failure; anything else is `read_atom`. -/
def readRun : Nat → RCall → Option (Datum × List (List Char))
  | 0, _ => none
  | fuel + 1, .form toks =>
      match toks with
      | [] => none              -- Reader_next on an exhausted reader
      | tok :: rest =>
          match tok with
          | '(' :: _ => readRun fuel (.list rest [])
          | ')' :: _ => none    -- "Unopened list"
          | _ => (read_atom tok).map (fun d => (d, rest))
  | fuel + 1, .list toks acc =>
      match toks with
      | [] => none              -- "Unclosed list"
      | tok :: rest =>
          match tok with
          | ')' :: _ => some (.list acc, rest)
          | _ =>
              match readRun fuel (.form toks) with
              | some (d, rest2) =>
                  readRun fuel (.list rest2 (acc ++ [d]))  -- List_add
              | none => none    -- "Illegal form"

/-- Embeds the REPL-side `read(in)`: tokenize, return nothing on empty
input, otherwise parse one form (trailing tokens are ignored).  Both
parse errors and empty input are a NULL result in C.  The parser's
fuel is bounded by twice the token count, which `read_form` /
`read_list` can never exceed. -/
def read (s : String) : Option Datum :=
  let toks := tokenize s.data
  if toks.isEmpty then none
  else (readRun (2 * toks.length + 2) (.form toks)).map (fun p => p.1)

/-! ## Atoms and the exception globals (`core.c`)

Atoms are the one mutable datum, and `Atom_eq` / `Atom_copy` work on
the *pointer* held in the atom's single slot, so this part is modelled
at the pointer level: an `AtomHeap` maps atom indices (allocation
order) to the abstract pointer (`Nat`) of the datum they hold. -/

namespace AtomModel

/-- The population of `Atom` objects: cell `a` holds `atom->dtm`, the
pointer of the datum the atom currently references. -/
structure AtomHeap where
  cells : List Nat

/-- Embeds `Atom_new(dtm)`: a fresh atom whose slot holds the given
pointer.  Returns the new heap and the new atom's index. -/
def Atom_new (h : AtomHeap) (p : Nat) : AtomHeap × Nat :=
  (⟨h.cells ++ [p]⟩, h.cells.length)

/-- Embeds `Atom_deref(atom)`: the pointer held in the slot. -/
def Atom_deref (h : AtomHeap) (a : Nat) : Option Nat :=
  h.cells[a]?

/-- Embeds `Atom_copy(atom) = Atom_new(atom->dtm)`: a *fresh* atom object
sharing the held pointer.  `none` when the atom index is dangling
(impossible in C, where the argument is a live object). -/
def Atom_copy (h : AtomHeap) (a : Nat) : Option (AtomHeap × Nat) :=
  (Atom_deref h a).map (Atom_new h)

/-- Embeds `Atom_set(atom, dtm)`: overwrite the slot (the early return on
`atom->dtm == dtm` changes nothing observable). -/
def Atom_set (h : AtomHeap) (a : Nat) (p : Nat) : AtomHeap :=
  ⟨h.cells.set a p⟩

/-- Embeds `Atom_eq(a, b)`: "2 Atoms are equal only if they point to the
same value" — pointer comparison of the held datums.  This is what
`=` (`lisp_eq` → `LispDatum_eq`) computes on two distinct atom
objects. -/
def Atom_eq (h : AtomHeap) (a b : Nat) : Bool :=
  match Atom_deref h a, Atom_deref h b with
  | some p, some q => p = q
  | _, _ => false

/-- Globals of `core.c` relevant to throwing an atom: the atom heap and
`g_last_exn.dtm` (holding an atom pointer after an atom was thrown). -/
structure ExnGlobals where
  heap : AtomHeap
  lastExnAtom : Option Nat

/-- Embeds `throw(src, dtm)` for an `Atom` payload: `LispDatum_copy`
dispatches to `Atom_copy`, and the copy is stored in
`g_last_exn.dtm`. -/
def throwAtom (g : ExnGlobals) (a : Nat) : Option ExnGlobals :=
  (Atom_copy g.heap a).map (fun hc => ⟨hc.1, some hc.2⟩)

/-- Embeds `thrown_copy() = Exception_new(g_last_exn.dtm)` as called by
`eval_try_star`: wraps a *second* fresh copy of the stored datum; the
returned index is `exn->dtm`, exactly what `lisp_exn_datum`
(`Exception_datum`) later hands to the `catch*` handler. -/
def thrown_copy (g : ExnGlobals) : Option (ExnGlobals × Nat) :=
  match g.lastExnAtom with
  | none => none
  | some a1 =>
      (Atom_copy g.heap a1).map (fun hc => (⟨hc.1, g.lastExnAtom⟩, hc.2))

end AtomModel

end Clisp

/-! ## Theorems -/

namespace Clisp

/-- C10: for every body expression `E`, evaluating `(let* () E)` — a
`let*` whose bindings list is empty — fails with the bad-syntax error
"let* expects a non-empty list of bindings" and `E` is not evaluated:
the result is the input state with only that error recorded, uniformly
in `E`.  The final conjunct runs the full evaluator on `(let* () 5)`
from a fresh root state. -/
theorem C10_letstar_rejects_empty_bindings :
    (∀ (fuel : Nat) (E : Datum) (env : Nat) (st : St),
      exec (fuel + 1) (.eval_letstar [.sym "let*", .list [], E] env) st
        = .fail (badstx st "let* expects a non-empty list of bindings")) ∧
    evalTop 30 (.list [.sym "let*", .list [], .num 5]) 0 rootSt
      = .fail (badstx rootSt "let* expects a non-empty list of bindings") :=
  ⟨fun _ _ _ _ => rfl, rfl⟩

end Clisp

namespace Clisp

/-- C3 (code-bug evidence): printing the Nil singleton readably gives
`nil`, but the reader — whose `read_atom` carries explicit
`TODO nil / TODO false / TODO true / TODO string` markers — parses that
text back as the *Symbol* `nil`, which is not the Nil singleton; the
same happens for `true` and `false`, and a readably printed String does
not parse at all (its leading double quote is in `SYMBOL_INV_CHARS`).
Numbers, symbols and lists of those do round-trip. -/
theorem C3_read_print_roundtrip_fails :
    read (prStrF 4 .nil true) = some (.sym "nil") ∧
    Datum.sym "nil" ≠ Datum.nil ∧
    read (prStrF 4 .tru true) = some (.sym "true") ∧
    read (prStrF 4 .fls true) = some (.sym "false") ∧
    read (prStrF 4 (.str "hi") true) = none ∧
    read (prStrF 4 (.num (-42)) true) = some (.num (-42)) ∧
    read (prStrF 8 (.list [.num 1, .sym "abc"]) true)
      = some (.list [.num 1, .sym "abc"]) :=
  ⟨rfl, fun h => Datum.noConfusion h, rfl, rfl, rfl, rfl, rfl⟩

/-- C2 (code-bug evidence): after `(def! f (lambda (& rest) rest))`,
the call `(f)` goes through the tail-call path
(`eval_application_tco`), which binds parameters positionally over the
*argument* count and never constructs the variadic rest list, so `rest`
stays unbound and the call fails with the unbound-symbol fault; the
very same procedure applied anonymously — `((lambda (& rest) rest))`,
the `apply_proc` path — binds `rest` to the empty list as the claim
demands. -/
theorem C2_tco_loses_variadic_binding :
    (∃ p st1 st2,
      evalTop 40 c2def 0 rootSt = .od p st1 ∧
      evalTop 40 (.list [.sym "f"]) 0 st1 = .fail st2 ∧
      st2.lastfail = .lfException ∧
      st2.lastExn = some (.str "symbol binding 'rest' not found")) ∧
    (∃ st3,
      evalTop 40 (.list [.list [.sym "lambda",
          .list [.sym "&", .sym "rest"], .sym "rest"]]) 0 rootSt
        = .od (.list []) st3) :=
  ⟨⟨_, _, _, rfl, rfl, rfl, rfl⟩, ⟨_, rfl⟩⟩

end Clisp

namespace Clisp

/-- C9: when an atom is thrown, `throw` stores an `Atom_copy` in the
last-exception slot and `eval_try_star`'s `thrown_copy` wraps a second
`Atom_copy` for the handler, so the datum the handler obtains through
`exn-datum` is a distinct atom object (`a2 ≠ a`) that initially holds
the same inner datum pointer; `Atom_eq` (what `=` computes on atoms)
therefore holds between them at catch time, and `atom-set!` on the
caught atom leaves the thrown atom's slot unchanged. -/
theorem C9_thrown_atom_is_fresh_copy :
    ∀ (h : AtomModel.AtomHeap) (a p : Nat),
      AtomModel.Atom_deref h a = some p →
      ∃ g1 g2 a2,
        AtomModel.throwAtom ⟨h, none⟩ a = some g1 ∧
        AtomModel.thrown_copy g1 = some (g2, a2) ∧
        a2 ≠ a ∧
        AtomModel.Atom_deref g2.heap a2 = some p ∧
        AtomModel.Atom_deref g2.heap a = some p ∧
        AtomModel.Atom_eq g2.heap a a2 = true ∧
        ∀ q, AtomModel.Atom_deref (AtomModel.Atom_set g2.heap a2 q) a
          = some p := by
  intro h a p hp
  have ha : a < h.cells.length := (List.getElem?_eq_some.mp hp).1
  have hlen : (h.cells ++ [p]).length = h.cells.length + 1 := by simp
  have hderef_a1 :
      AtomModel.Atom_deref ⟨h.cells ++ [p]⟩ h.cells.length = some p :=
    List.getElem?_concat_length h.cells p
  have hcellsA : ((h.cells ++ [p]) ++ [p])[a]? = some p := by
    rw [List.getElem?_append_left (by simp; omega),
        List.getElem?_append_left ha]
    exact hp
  have hcellsA2 : ((h.cells ++ [p]) ++ [p])[(h.cells ++ [p]).length]?
      = some p := List.getElem?_concat_length (h.cells ++ [p]) p
  refine ⟨⟨⟨h.cells ++ [p]⟩, some h.cells.length⟩,
          ⟨⟨(h.cells ++ [p]) ++ [p]⟩, some h.cells.length⟩,
          (h.cells ++ [p]).length, ?_, ?_, ?_, ?_, ?_, ?_, ?_⟩
  · have hp' : h.cells[a]? = some p := hp
    simp [AtomModel.throwAtom, AtomModel.Atom_copy, AtomModel.Atom_deref,
          hp', AtomModel.Atom_new]
  · simp [AtomModel.thrown_copy, AtomModel.Atom_copy, hderef_a1,
          AtomModel.Atom_new]
  · omega
  · exact hcellsA2
  · exact hcellsA
  · show AtomModel.Atom_eq ⟨(h.cells ++ [p]) ++ [p]⟩ a
        (h.cells ++ [p]).length = true
    unfold AtomModel.Atom_eq
    rw [show AtomModel.Atom_deref ⟨(h.cells ++ [p]) ++ [p]⟩ a = some p
          from hcellsA,
        show AtomModel.Atom_deref ⟨(h.cells ++ [p]) ++ [p]⟩
            (h.cells ++ [p]).length = some p from hcellsA2]
    simp
  · intro q
    show (((h.cells ++ [p]) ++ [p]).set (h.cells ++ [p]).length q)[a]?
        = some p
    rw [List.getElem?_set_ne (by omega)]
    exact hcellsA

/-- Witness for `C9_thrown_atom_is_fresh_copy` at the one-atom heap
holding pointer 7. -/
theorem C9_thrown_atom_is_fresh_copy_witness :
    AtomModel.Atom_deref ⟨[7]⟩ 0 = some 7 ∧
    ∃ g1 g2 a2,
      AtomModel.throwAtom ⟨⟨[7]⟩, none⟩ 0 = some g1 ∧
      AtomModel.thrown_copy g1 = some (g2, a2) ∧
      a2 ≠ 0 ∧
      AtomModel.Atom_deref g2.heap a2 = some 7 ∧
      AtomModel.Atom_deref g2.heap 0 = some 7 ∧
      AtomModel.Atom_eq g2.heap 0 a2 = true ∧
      ∀ q, AtomModel.Atom_deref (AtomModel.Atom_set g2.heap a2 q) 0
        = some 7 :=
  ⟨rfl, C9_thrown_atom_is_fresh_copy ⟨[7]⟩ 0 7 rfl⟩

end Clisp

namespace Clisp

/-- C7: the arity check of `verify_proc_application` passes exactly
when a non-variadic procedure receives `argc` arguments, or a variadic
one receives at least `argc`; on violation the arity fault is raised
(via `throwf`, so `g_lastfail` records a throw with the arity message
as payload) and neither `apply_proc` nor `eval_application_tco`
invokes the body or built-in — both return the raising state
unchanged, for every procedure body. -/
theorem C7_arity_check :
    (∀ (p : ProcV) (args : List Datum) (st : St),
      (verify_proc_application p args st).1 = true ↔
        (if p.variadic then p.argc ≤ args.length
         else args.length = p.argc)) ∧
    (∀ (p : ProcV) (args : List Datum) (st : St),
      (verify_proc_application p args st).1 = false →
        verify_proc_application p args st
          = (false, throwfSt st ("expected at least " ++ toString p.argc
              ++ " arguments, but " ++ toString args.length
              ++ " were given")) ∧
        (verify_proc_application p args st).2.lastfail = .lfException) ∧
    (∀ (fuel : Nat) (p : ProcV) (args : List Datum) (env : Nat) (st : St),
      (verify_proc_application p args st).1 = false →
      exec (fuel + 1) (.apply_proc p args env) st
        = .fail (verify_proc_application p args st).2) ∧
    (∀ (fuel : Nat) (p : ProcV) (args : List Datum) (aenv : Nat) (st : St),
      (verify_proc_application p args st).1 = false →
      exec (fuel + 1) (.eval_application_tco p args aenv) st
        = .fail (verify_proc_application p args st).2) := by
  have hchar : ∀ (p : ProcV) (args : List Datum) (st : St),
      (verify_proc_application p args st).1 = true ↔
        (if p.variadic then p.argc ≤ args.length
         else args.length = p.argc) := by
    intro p args st
    simp only [verify_proc_application]
    split
    next hcond =>
      cases hb : p.variadic <;> simp_all
    next hcond =>
      cases hb : p.variadic <;> simp_all
  refine ⟨hchar, ?_, ?_, ?_⟩
  · intro p args st hfalse
    unfold verify_proc_application at hfalse ⊢
    split at hfalse
    next hcond => exact ⟨if_pos hcond, by rw [if_pos hcond]; rfl⟩
    next hcond => simp at hfalse
  · intro fuel p args env st hfalse
    rcases hv : verify_proc_application p args st with ⟨b, st1⟩
    rw [hv] at hfalse
    simp only at hfalse
    subst hfalse
    simp only [exec, hv]
  · intro fuel p args aenv st hfalse
    rcases hv : verify_proc_application p args st with ⟨b, st1⟩
    rw [hv] at hfalse
    simp only at hfalse
    subst hfalse
    simp only [exec, hv]

/-- Witness for `C7_arity_check`: a non-variadic two-parameter
procedure applied to one argument. -/
theorem C7_arity_check_witness :
    ((verify_proc_application (.mk (some "g") 2 false ["a", "b"] false
        none [.num 0] 0) [.num 1] rootSt).1 = false) ∧
    exec 8 (.apply_proc (.mk (some "g") 2 false ["a", "b"] false
        none [.num 0] 0) [.num 1] 0) rootSt
      = .fail (verify_proc_application (.mk (some "g") 2 false ["a", "b"]
          false none [.num 0] 0) [.num 1] rootSt).2 :=
  ⟨rfl, C7_arity_check.2.2.1 7 (.mk (some "g") 2 false ["a", "b"] false
      none [.num 0] 0) [.num 1] 0 rootSt rfl⟩

end Clisp

namespace Clisp

/-- C1 (counterexample): `(try* nosuch (catch* e 42))` — evaluating the
unbound symbol `nosuch` fails with the unbound-symbol fault, one of the
faults the claim lists, and that failure is recorded by `throw`
(`LF_EXCEPTION`); contrary to the claim the handler IS evaluated: the
whole form yields `42` instead of unwinding to the REPL. -/
theorem C1_counterexample_unbound_symbol_is_caught :
    (∃ st0, evalTop 30 (.sym "nosuch") 0 rootSt = .fail st0 ∧
        st0.lastfail = .lfException ∧
        st0.lastExn = some (.str "symbol binding 'nosuch' not found")) ∧
    (∃ st, evalTop 30 (.list [.sym "try*", .sym "nosuch",
        .list [.sym "catch*", .sym "e", .num 42]]) 0 rootSt
      = .od (.num 42) st) :=
  ⟨⟨_, rfl, rfl, rfl⟩, ⟨_, rfl⟩⟩

/-- C1 (amended): `try*` distinguishes the two failure kinds by
`didthrow()`.  When the tried expression fails with an **error**
(`g_lastfail = LF_ERROR`, i.e. a bad-syntax fault), the handler is not
evaluated and the failure unwinds unchanged.  When it fails with an
**exception** (`LF_EXCEPTION` — everything raised via `throw`/`throwf`,
which in this code includes arity-error, type-error, unbound-symbol,
not-applicable and index-out-of-range as well as user `throw`), the
handler is evaluated with the exception bound. -/
theorem C1_try_star_catches_exactly_throws
    (fuel : Nat) (E H : Datum) (s : String) (env : Nat) (st st' : St)
    (hE : exec fuel (.eval E env env) st = .fail st') :
    (st'.lastfail = .lfError →
      exec (fuel + 1) (.eval_try_star
        [.sym "try*", E, .list [.sym "catch*", .sym s, H]] env) st
        = .fail st') ∧
    (∀ P, st'.lastfail = .lfException → st'.lastExn = some P →
      exec (fuel + 1) (.eval_try_star
        [.sym "try*", E, .list [.sym "catch*", .sym s, H]] env) st
        = exec fuel (.eval H (envNew env st').1 (envNew env st').1)
            (envPut (envNew env st').1 s (.exn P) (envNew env st').2).1) := by
  have step : exec (fuel + 1) (.eval_try_star
      [.sym "try*", E, .list [.sym "catch*", .sym s, H]] env) st
      = match exec fuel (.eval E env env) st with
        | .od v st1 => .od v st1
        | .fail st1 =>
            if didthrow st1 then
              match st1.lastExn with
              | some payload =>
                  exec fuel
                    (.eval H (envNew env st1).1 (envNew env st1).1)
                    (envPut (envNew env st1).1 s (.exn payload)
                      (envNew env st1).2).1
              | none => .stuck
            else .fail st1
        | .spin => .spin
        | _ => .stuck := rfl
  constructor
  · intro hErr
    rw [step, hE]
    simp [didthrow, hErr]
  · intro P hExc hP
    rw [step, hE]
    simp [didthrow, hExc, hP]

/-- Witness for `C1_try_star_catches_exactly_throws`: the tried
expression `()` (an empty application) fails with the bad-syntax
error, and the `try*` form propagates that error without evaluating the
handler. -/
theorem C1_try_star_catches_exactly_throws_witness :
    exec 6 (.eval_try_star [.sym "try*", .list [],
        .list [.sym "catch*", .sym "e", .num 1]] 0) rootSt
      = .fail (badstx rootSt "empty application ()") :=
  (C1_try_star_catches_exactly_throws 5 (.list []) (.num 1) "e" 0
      rootSt (badstx rootSt "empty application ()") rfl).1 rfl

end Clisp

namespace Clisp

/-- Helper: the naming side effect is idempotent — binding an
already-named datum changes nothing. -/
theorem nameIfUnnamedProc_idem (id : String) (v : Datum) :
    nameIfUnnamedProc id (nameIfUnnamedProc id v)
      = nameIfUnnamedProc id v := by
  cases v <;> try rfl
  next p =>
    cases p with
    | mk n a va ps m b bd e => cases n <;> rfl

/-- Helper: the datum component returned by `MalEnv_put` is the bound
datum after the naming side effect. -/
theorem envPut_snd (env : Nat) (id : String) (d : Datum) (st : St) :
    (envPut env id d st).2 = nameIfUnnamedProc id d := by
  unfold envPut
  split <;> rfl

/-- Helper: `MalEnv_put` mutates only the frame it binds in. -/
theorem envPut_frames_other (env : Nat) (id : String) (d : Datum)
    (st : St) (j : Nat) (hj : j ≠ env) :
    ((envPut env id d st).1).frames[j]? = st.frames[j]? := by
  unfold envPut
  split
  · rfl
  · simp only
    exact List.getElem?_set_ne (fun h => hj h.symm)

/-- C8: `def!` evaluates its expression in the current environment,
binds the name in the current frame only — every other frame of the
store is untouched — and returns the result (with the unnamed-procedure
naming side effect).  Consequently `((lambda () (def! q 1)))` at top
level returns 1, leaves `q` unbound in the root environment, and leaves
the root frame exactly as it was. -/
theorem C8_def_binds_current_frame_only :
    (∀ (fuel : Nat) (name : String) (expr : Datum) (env : Nat)
       (st st1 : St) (v : Datum),
      exec fuel (.eval expr env env) st = .od v st1 →
      exec (fuel + 1) (.eval_def [.sym "def!", .sym name, expr] env) st
        = .od (envPut env name (nameIfUnnamedProc name v) st1).2
            (envPut env name (nameIfUnnamedProc name v) st1).1 ∧
      (envPut env name (nameIfUnnamedProc name v) st1).2
        = nameIfUnnamedProc name v ∧
      (∀ j, j ≠ env →
        ((envPut env name (nameIfUnnamedProc name v) st1).1).frames[j]?
          = st1.frames[j]?)) ∧
    (∃ st, evalTop 30 c8prog 0 rootSt = .od (.num 1) st ∧
      envGet st 0 "q" = none ∧
      st.frames[0]? = rootSt.frames[0]?) := by
  constructor
  · intro fuel name expr env st st1 v hEv
    have step : exec (fuel + 1)
        (.eval_def [.sym "def!", .sym name, expr] env) st
        = match exec fuel (.eval expr env env) st with
          | .od v st1 =>
              .od (envPut env name (nameIfUnnamedProc name v) st1).2
                (envPut env name (nameIfUnnamedProc name v) st1).1
          | .fail st1 => .fail st1
          | .spin => .spin
          | _ => .stuck := rfl
    rw [step, hEv]
    exact ⟨rfl, envPut_snd env name (nameIfUnnamedProc name v) st1
        |>.trans (nameIfUnnamedProc_idem name v),
      fun j hj => envPut_frames_other env name
        (nameIfUnnamedProc name v) st1 j hj⟩
  · exact ⟨_, rfl, rfl, rfl⟩

/-- Witness for `C8_def_binds_current_frame_only`:
`(def! q 1)` in the root frame. -/
theorem C8_def_binds_current_frame_only_witness :
    exec 4 (.eval_def [.sym "def!", .sym "q", .num 1] 0) rootSt
      = .od (envPut 0 "q" (nameIfUnnamedProc "q" (.num 1)) rootSt).2
          (envPut 0 "q" (nameIfUnnamedProc "q" (.num 1)) rootSt).1 :=
  (C8_def_binds_current_frame_only.1 3 "q" (.num 1) 0 rootSt rootSt
      (.num 1) rfl).1

end Clisp

namespace Clisp

/-- C6: when the tried expression raises an exception with payload `P`
(`didthrow` with `g_last_exn.dtm = P`), `try*` creates a child
environment of the current one whose single binding maps the catch
symbol to an Exception datum wrapping `P`, and evaluates the handler
there; `exn-datum` applied to such an Exception returns `P`.  The final
conjunct runs the full evaluator on
`(try* (throw "boom") (catch* e (exn-datum e)))`, which yields the
string `"boom"`. -/
theorem C6_try_star_binds_exception_and_exn_datum
    (fuel : Nat) (E H : Datum) (s : String) (env : Nat) (st st1 : St)
    (P : Datum)
    (hE : exec fuel (.eval E env env) st = .fail st1)
    (hThrew : st1.lastfail = .lfException)
    (hP : st1.lastExn = some P) :
    exec (fuel + 1) (.eval_try_star
        [.sym "try*", E, .list [.sym "catch*", .sym s, H]] env) st
      = exec fuel (.eval H (envNew env st1).1 (envNew env st1).1)
          (envPut (envNew env st1).1 s (.exn P) (envNew env st1).2).1 ∧
    ((envPut (envNew env st1).1 s (.exn P)
        (envNew env st1).2).1).frames[(envNew env st1).1]?
      = some ⟨[(s, .exn P)], some env⟩ ∧
    envGet (envPut (envNew env st1).1 s (.exn P) (envNew env st1).2).1
        (envNew env st1).1 s = some (.exn P) ∧
    (∀ pr st0, applyBuiltin .bExnDatum pr [.exn P] st0 = (some P, st0)) ∧
    (∃ stF, evalTop 30 boomProg 0 rootSt = .od (.str "boom") stF) := by
  have step : exec (fuel + 1) (.eval_try_star
      [.sym "try*", E, .list [.sym "catch*", .sym s, H]] env) st
      = match exec fuel (.eval E env env) st with
        | .od v st1 => .od v st1
        | .fail st1 =>
            if didthrow st1 then
              match st1.lastExn with
              | some payload =>
                  exec fuel
                    (.eval H (envNew env st1).1 (envNew env st1).1)
                    (envPut (envNew env st1).1 s (.exn payload)
                      (envNew env st1).2).1
              | none => .stuck
            else .fail st1
        | .spin => .spin
        | _ => .stuck := rfl
  have hframe : ((envPut (envNew env st1).1 s (.exn P)
      (envNew env st1).2).1).frames[(envNew env st1).1]?
      = some ⟨[(s, .exn P)], some env⟩ := by
    show ((envPut st1.frames.length s (.exn P)
        { st1 with frames := st1.frames ++ [⟨[], some env⟩] }).1).frames[st1.frames.length]?
        = some ⟨[(s, .exn P)], some env⟩
    unfold envPut
    rw [show ({ st1 with frames := st1.frames ++ [⟨[], some env⟩] } : St).frames[st1.frames.length]?
        = some (⟨[], some env⟩ : Frame)
      from List.getElem?_concat_length st1.frames _]
    simp only [nameIfUnnamedProc]
    exact List.getElem?_set_self (by simp)
  refine ⟨?_, hframe, ?_, ?_, ?_⟩
  · rw [step, hE]
    simp [didthrow, hThrew, hP]
  · show envGetAux _ _ _ _ = _
    rw [envGetAux]
    · rw [hframe]
      simp [lookupBind]
    -- no further goals: envGetAux's step count is positive by construction
  · intro pr st0
    rfl
  · exact ⟨_, rfl⟩

end Clisp

namespace Clisp

/-- Witness for `C6_try_star_binds_exception_and_exn_datum`:
the tried expression `(throw "boom")` with handler `(exn-datum e)`. -/
theorem C6_try_star_binds_exception_and_exn_datum_witness :
    exec 21 (.eval_try_star [.sym "try*",
        .list [.sym "throw", .str "boom"],
        .list [.sym "catch*", .sym "e",
               .list [.sym "exn-datum", .sym "e"]]] 0) rootSt
      = exec 20 (.eval (.list [.sym "exn-datum", .sym "e"])
          (envNew 0 (throwSt rootSt (.str "boom"))).1
          (envNew 0 (throwSt rootSt (.str "boom"))).1)
          (envPut (envNew 0 (throwSt rootSt (.str "boom"))).1 "e"
            (.exn (.str "boom"))
            (envNew 0 (throwSt rootSt (.str "boom"))).2).1 :=
  (C6_try_star_binds_exception_and_exn_datum 20
      (.list [.sym "throw", .str "boom"])
      (.list [.sym "exn-datum", .sym "e"]) "e" 0 rootSt
      (throwSt rootSt (.str "boom")) (.str "boom") rfl rfl rfl).1

end Clisp

namespace Clisp

/-- C5: inside a quasiquoted list, `eval_quasiquote_list` builds the
result element by element: a `(splice-unquote y)` element has `y`
evaluated and, when the value is a list, its elements are appended in
place into the enclosing result; if the value is not a list the whole
quasiquote fails with the bad-syntax fault; every other element
contributes exactly one element (a non-list element stands for itself,
a list element for its recursive quasiquotation); and a bare
`splice-unquote` at the outermost position is rejected before
evaluating anything. -/
theorem C5_quasiquote_splice :
    -- terminal: the accumulated elements form the result list
    (∀ (fuel : Nat) (env : Nat) (acc : List Datum) (st : St),
      exec (fuel + 1) (.qq_items [] env acc) st
        = .osp (.list acc) false st) ∧
    -- a non-list element contributes exactly itself
    (∀ (fuel : Nat) (e : Datum) (rest : List Datum) (env : Nat)
       (acc : List Datum) (st : St), e.isList = false →
      exec (fuel + 1) (.qq_items (e :: rest) env acc) st
        = exec fuel (.qq_items rest env (acc ++ [e])) st) ∧
    -- a list element whose recursive quasiquotation does not splice
    -- contributes exactly one element
    (∀ (fuel : Nat) (es rest : List Datum) (env : Nat)
       (acc : List Datum) (st st1 : St) (q : Datum),
      exec fuel (.eval_quasiquote_list es env) st = .osp q false st1 →
      exec (fuel + 1) (.qq_items (.list es :: rest) env acc) st
        = exec fuel (.qq_items rest env (acc ++ [q])) st1) ∧
    -- (splice-unquote y): y is evaluated and its list elements are
    -- appended in place
    (∀ (fuel : Nat) (y : Datum) (ys rest : List Datum) (env : Nat)
       (acc : List Datum) (st st1 : St),
      exec fuel (.eval y env env) st = .od (.list ys) st1 →
      exec (fuel + 3) (.qq_items
          (.list [.sym "splice-unquote", y] :: rest) env acc) st
        = exec (fuel + 2) (.qq_items rest env (acc ++ ys)) st1) ∧
    -- (splice-unquote y) whose value is not a list: bad-syntax fault
    (∀ (fuel : Nat) (y v : Datum) (rest : List Datum) (env : Nat)
       (acc : List Datum) (st st1 : St),
      exec fuel (.eval y env env) st = .od v st1 → v.isList = false →
      exec (fuel + 3) (.qq_items
          (.list [.sym "splice-unquote", y] :: rest) env acc) st
        = .fail (badstx st1
            ("splice-unquote: resulting value must be a list, but was "
              ++ typeName v))) ∧
    -- a bare splice-unquote at the outermost position is an error,
    -- uniformly in its arguments (nothing is evaluated)
    (∀ (fuel : Nat) (ys : List Datum) (env : Nat) (st : St),
      exec (fuel + 1) (.eval_quasiquote
          [.sym "quasiquote", .list (.sym "splice-unquote" :: ys)] env) st
        = .fail (badstx st
            "splice-unquote: illegal context within quasiquote (nothing to splice into)")) := by
  refine ⟨fun _ _ _ _ => rfl, ?_, ?_, ?_, ?_, fun _ _ _ _ => rfl⟩
  · intro fuel e rest env acc st he
    cases e <;> first
      | rfl
      | (exact absurd he (by simp [Datum.isList]))
  · intro fuel es rest env acc st st1 q hrec
    have step : exec (fuel + 1) (.qq_items (.list es :: rest) env acc) st
        = match exec fuel (.eval_quasiquote_list es env) st with
          | .osp ev sp st1 =>
              if sp then
                match ev with
                | .list es2 =>
                    exec fuel (.qq_items rest env (acc ++ es2)) st1
                | _ => .stuck
              else exec fuel (.qq_items rest env (acc ++ [ev])) st1
          | .fail st1 => .fail st1
          | .spin => .spin
          | _ => .stuck := rfl
    rw [step, hrec]
    rfl
  · intro fuel y ys rest env acc st st1 hy
    have step1 : exec (fuel + 1)
        (.eval_splice_unquote [.sym "splice-unquote", y] env) st
        = match exec fuel (.eval y env env) st with
          | .od v st1 =>
              if v.isList then .od v st1
              else .fail (badstx st1
                ("splice-unquote: resulting value must be a list, but was "
                  ++ typeName v))
          | .fail st1 => .fail st1
          | .spin => .spin
          | _ => .stuck := rfl
    have step2 : exec (fuel + 2)
        (.eval_quasiquote_list [.sym "splice-unquote", y] env) st
        = match exec (fuel + 1)
              (.eval_splice_unquote [.sym "splice-unquote", y] env) st with
          | .od d st1 => .osp d true st1
          | .fail st1 => .fail st1
          | .spin => .spin
          | _ => .stuck := rfl
    have step3 : exec (fuel + 3) (.qq_items
        (.list [.sym "splice-unquote", y] :: rest) env acc) st
        = match exec (fuel + 2)
              (.eval_quasiquote_list [.sym "splice-unquote", y] env) st with
          | .osp ev sp st1 =>
              if sp then
                match ev with
                | .list es2 =>
                    exec (fuel + 2) (.qq_items rest env (acc ++ es2)) st1
                | _ => .stuck
              else exec (fuel + 2) (.qq_items rest env (acc ++ [ev])) st1
          | .fail st1 => .fail st1
          | .spin => .spin
          | _ => .stuck := rfl
    rw [step3, step2, step1, hy]
    rfl
  · intro fuel y v rest env acc st st1 hy hv
    have step1 : exec (fuel + 1)
        (.eval_splice_unquote [.sym "splice-unquote", y] env) st
        = match exec fuel (.eval y env env) st with
          | .od v st1 =>
              if v.isList then .od v st1
              else .fail (badstx st1
                ("splice-unquote: resulting value must be a list, but was "
                  ++ typeName v))
          | .fail st1 => .fail st1
          | .spin => .spin
          | _ => .stuck := rfl
    have step2 : exec (fuel + 2)
        (.eval_quasiquote_list [.sym "splice-unquote", y] env) st
        = match exec (fuel + 1)
              (.eval_splice_unquote [.sym "splice-unquote", y] env) st with
          | .od d st1 => .osp d true st1
          | .fail st1 => .fail st1
          | .spin => .spin
          | _ => .stuck := rfl
    have step3 : exec (fuel + 3) (.qq_items
        (.list [.sym "splice-unquote", y] :: rest) env acc) st
        = match exec (fuel + 2)
              (.eval_quasiquote_list [.sym "splice-unquote", y] env) st with
          | .osp ev sp st1 =>
              if sp then
                match ev with
                | .list es2 =>
                    exec (fuel + 2) (.qq_items rest env (acc ++ es2)) st1
                | _ => .stuck
              else exec (fuel + 2) (.qq_items rest env (acc ++ [ev])) st1
          | .fail st1 => .fail st1
          | .spin => .spin
          | _ => .stuck := rfl
    have h1 : exec (fuel + 1)
        (.eval_splice_unquote [.sym "splice-unquote", y] env) st
        = .fail (badstx st1
            ("splice-unquote: resulting value must be a list, but was "
              ++ typeName v)) := by
      rw [step1, hy]
      show (if v.isList = true then Out.od v st1
            else Out.fail (badstx st1
              ("splice-unquote: resulting value must be a list, but was "
                ++ typeName v))) = _
      rw [hv]
      simp
    have h2 : exec (fuel + 2)
        (.eval_quasiquote_list [.sym "splice-unquote", y] env) st
        = .fail (badstx st1
            ("splice-unquote: resulting value must be a list, but was "
              ++ typeName v)) := by
      rw [step2, h1]
    rw [step3, h2]

end Clisp

namespace Clisp

/-- Witness for `C5_quasiquote_splice`: splicing
`(splice-unquote (quote (b c)))` between `a` and `d` appends `b c` in
place, as in the spec scenario `(quasiquote (a (splice-unquote lst) d))`. -/
theorem C5_quasiquote_splice_witness :
    exec 13 (.qq_items
        [.list [.sym "splice-unquote",
                .list [.sym "quote", .list [.sym "b", .sym "c"]]],
         .sym "d"] 0 [.sym "a"]) rootSt
      = exec 12 (.qq_items [.sym "d"] 0
          ([.sym "a"] ++ [.sym "b", .sym "c"])) rootSt :=
  C5_quasiquote_splice.2.2.2.1 10
    (.list [.sym "quote", .list [.sym "b", .sym "c"]])
    [.sym "b", .sym "c"] [.sym "d"] 0 [.sym "a"] rootSt rootSt rfl

end Clisp

namespace Clisp

/-- Helper: one-step unfolding of `macroexpand_single`. -/
theorem macroexpand_single_eq (fuel : Nat) (ast : Datum) (env : Nat)
    (st : St) :
    exec (fuel + 1) (.macroexpand_single ast env) st
      = match ast with
        | .list (h :: t) =>
            match h with
            | .sym s =>
                match envGet st env s with
                | some (.proc p) =>
                    if p.macroFlag then
                      match exec fuel (.apply_proc p t env) st with
                      | .od d st1 => .oexp d true st1
                      | .fail st1 => .fail st1
                      | .spin => .spin
                      | _ => .stuck
                    else .oexp ast false st
                | _ => .oexp ast false st
            | _ => .oexp ast false st
        | _ => .oexp ast false st := rfl

/-- Helper: one-step unfolding of `macroexpand`. -/
theorem macroexpand_eq (fuel : Nat) (ast : Datum) (env : Nat) (st : St) :
    exec (fuel + 1) (.macroexpand ast env) st
      = match exec fuel (.macroexpand_single ast env) st with
        | .oexp d true st1 =>
            (match exec fuel (.macroexpand d env) st1 with
             | .oexp d2 _ st2 => .oexp d2 true st2
             | .fail st2 => .fail st2
             | .spin => .spin
             | _ => .stuck)
        | .oexp _ false st1 => .oexp ast false st1
        | .fail st1 => .fail st1
        | .spin => .spin
        | _ => .stuck := rfl

/-- Helper: one-step unfolding of `macroexpand_single` on a list with
a symbol head, exposing the environment lookup. -/
theorem macroexpand_single_sym_eq (fuel : Nat) (s : String)
    (t : List Datum) (env : Nat) (st : St) :
    exec (fuel + 1) (.macroexpand_single (.list (.sym s :: t)) env) st
      = match envGet st env s with
        | some (.proc p) =>
            if p.macroFlag then
              match exec fuel (.apply_proc p t env) st with
              | .od d st1 => .oexp d true st1
              | .fail st1 => .fail st1
              | .spin => .spin
              | _ => .stuck
            else .oexp (.list (.sym s :: t)) false st
        | _ => .oexp (.list (.sym s :: t)) false st := rfl

/-- Helper: when the input is not a macro call, `macroexpand_single`
returns it unchanged with the state untouched. -/
theorem macroexpand_single_of_not_call (fuel : Nat) (ast : Datum)
    (env : Nat) (st : St) (hnc : isMacroCall st env ast = false) :
    exec (fuel + 1) (.macroexpand_single ast env) st
      = .oexp ast false st := by
  cases ast with
  | list xs =>
      cases xs with
      | nil => rfl
      | cons hd t =>
          cases hd <;> try rfl
          next s =>
            have hnc' : (match envGet st env s with
                | some (.proc q) => q.macroFlag
                | _ => false) = false := hnc
            rw [macroexpand_single_sym_eq]
            split
            · next p heq =>
                rw [heq] at hnc'
                have hm : p.macroFlag = false := hnc'
                rw [if_neg (by simp [hm])]
            · rfl
  | _ => rfl

/-- Helper: a `macroexpand_single` result marked unchanged really is
the input, with the input state, and the input is not a macro call. -/
theorem macroexpand_single_unchanged (fuel : Nat) (ast : Datum)
    (env : Nat) (st : St) (d : Datum) (st1 : St)
    (h : exec fuel (.macroexpand_single ast env) st = .oexp d false st1) :
    d = ast ∧ st1 = st ∧ isMacroCall st env ast = false := by
  cases fuel with
  | zero => cases h
  | succ fuel =>
      cases ast with
      | list xs =>
          cases xs with
          | nil => cases h; exact ⟨rfl, rfl, rfl⟩
          | cons hd t =>
              cases hd <;> try (cases h; exact ⟨rfl, rfl, rfl⟩)
              next s =>
                rw [macroexpand_single_sym_eq] at h
                have hnc : isMacroCall st env (.list (.sym s :: t))
                    = false → isMacroCall st env (.list (.sym s :: t))
                    = false := fun x => x
                split at h
                · next p heq =>
                    split at h
                    · split at h <;> cases h
                    · next hm =>
                        cases h
                        refine ⟨rfl, rfl, ?_⟩
                        show (match envGet st env s with
                          | some (.proc q) => q.macroFlag
                          | _ => false) = false
                        rw [heq]
                        simpa using hm
                · next heq =>
                    cases h
                    refine ⟨rfl, rfl, ?_⟩
                    show (match envGet st env s with
                      | some (.proc q) => q.macroFlag
                      | _ => false) = false
                    cases henv : envGet st env s with
                    | none => rfl
                    | some dd =>
                        rw [henv] at heq
                        cases dd <;> try rfl
                        next p => exact absurd rfl (heq p)
      | _ => cases h; exact ⟨rfl, rfl, rfl⟩

/-- Helper: the result of a successful `macroexpand` is stable — it is
not a macro call in the final state, so one more `macroexpand_single`
leaves it untouched. -/
theorem macroexpand_result_stable :
    ∀ (fuel : Nat) (ast : Datum) (env : Nat) (st : St) (d : Datum)
      (ch : Bool) (st1 : St),
      exec fuel (.macroexpand ast env) st = .oexp d ch st1 →
      isMacroCall st1 env d = false := by
  intro fuel
  induction fuel with
  | zero => intro ast env st d ch st1 h; cases h
  | succ fuel ih =>
      intro ast env st d ch st1 h
      rw [macroexpand_eq] at h
      cases hs : exec fuel (.macroexpand_single ast env) st with
      | oexp a chs st2 =>
          rw [hs] at h
          cases chs with
          | true =>
              have h1 : (match exec fuel (.macroexpand a env) st2 with
                  | .oexp d2 _ st3 => Out.oexp d2 true st3
                  | .fail st3 => Out.fail st3
                  | .spin => Out.spin
                  | _ => Out.stuck) = Out.oexp d ch st1 := h
              cases hrec : exec fuel (.macroexpand a env) st2 with
              | oexp d2 ch2 st3 =>
                  rw [hrec] at h1
                  have h2 : Out.oexp d2 true st3 = Out.oexp d ch st1 := h1
                  cases h2
                  exact ih _ _ _ _ _ _ hrec
              | fail st3 =>
                  rw [hrec] at h1
                  cases h1
              | spin => rw [hrec] at h1; cases h1
              | od d3 st3 => rw [hrec] at h1; cases h1
              | ods ds st3 => rw [hrec] at h1; cases h1
              | osp d3 sp st3 => rw [hrec] at h1; cases h1
              | stuck => rw [hrec] at h1; cases h1
          | false =>
              have h1 : Out.oexp ast false st2 = Out.oexp d ch st1 := h
              cases h1
              obtain ⟨ha, hst, hnc⟩ :=
                macroexpand_single_unchanged fuel ast env st a _ hs
              rw [hst]
              exact hnc
      | fail st2 => rw [hs] at h; cases h
      | spin => rw [hs] at h; cases h
      | od d2 st2 => rw [hs] at h; cases h
      | ods ds st2 => rw [hs] at h; cases h
      | osp d2 sp st2 => rw [hs] at h; cases h
      | stuck => rw [hs] at h; cases h

end Clisp

namespace Clisp

/-- Helper: one-step unfolding of the `eval` loop iteration on a list
expression — macro expansion happens first, and everything that
follows (special-form dispatch, argument evaluation, application)
works on the expansion's result only. -/
theorem eval_list_step_eq (fuel : Nat) (xs : List Datum)
    (env aenv : Nat) (st : St) :
    exec (fuel + 1) (.eval (.list xs) env aenv) st
      = match exec fuel (.macroexpand (.list xs) env) st with
        | .oexp expanded changed st1 =>
            if changed && !expanded.isList then
              exec fuel (.eval_ast expanded env) st1
            else
              match expanded with
              | .list [] => .fail (badstx st1 "empty application ()")
              | .list l =>
                  match l with
                  | [] => .stuck
                  | head :: _ =>
                      match head with
                      | .sym s =>
                          if s = "def!" then
                            exec fuel (.eval_def l aenv) st1
                          else if s = "defmacro!" then
                            exec fuel (.eval_defmacro_form l aenv) st1
                          else if s = "let*" then
                            exec fuel (.eval_letstar l aenv) st1
                          else if s = "if" then
                            match exec fuel (.eval_if l aenv) st1 with
                            | .od branch st2 =>
                                exec fuel (.eval branch env aenv) st2
                            | .fail st2 => .fail st2
                            | .spin => .spin
                            | _ => .stuck
                          else if s = "do" then
                            exec fuel (.eval_do l aenv) st1
                          else if s = "lambda" then
                            exec fuel (.eval_fnstar l aenv) st1
                          else if s = "quote" then
                            exec fuel (.eval_quote l aenv) st1
                          else if s = "quasiquote" then
                            exec fuel (.eval_quasiquote l aenv) st1
                          else if s = "macroexpand" then
                            exec fuel (.eval_macroexpand l aenv) st1
                          else if s = "try*" then
                            exec fuel (.eval_try_star l aenv) st1
                          else
                            exec fuel (.eval_application l env aenv) st1
                      | _ => exec fuel (.eval_application l env aenv) st1
              | _ => .stuck
        | .fail st1 => .fail st1
        | .spin => .spin
        | _ => .stuck := rfl

end Clisp

namespace Clisp

/-- C4: macro expansion in `eval`.  (1) An expression that is not a
macro call (not a non-empty list whose symbol head is bound to a
procedure with the macro flag) is left untouched by `macroexpand`.
(2) A macro call has the bound macro procedure applied to the list's
*unevaluated* tail and expansion continues on the result.  (3) The
result of a successful expansion is a stable value: it is not a macro
call in the resulting state, so one more `macroexpand_single` returns
it unchanged.  (4) Evaluation of a list form processes the *expanded*
form only: when the fixpoint is a non-special application, `eval`
proceeds to `eval_application` (which is where argument evaluation
happens) on the expanded list — so no argument is evaluated before
expansion has run to completion. -/
theorem C4_macroexpand_fixpoint :
    (∀ (fuel : Nat) (ast : Datum) (env : Nat) (st : St),
      isMacroCall st env ast = false →
      exec (fuel + 2) (.macroexpand ast env) st = .oexp ast false st) ∧
    (∀ (fuel : Nat) (s : String) (t : List Datum) (env : Nat)
       (st st1 st2 : St) (p : ProcV) (d d2 : Datum) (ch2 : Bool),
      envGet st env s = some (.proc p) →
      p.macroFlag = true →
      exec fuel (.apply_proc p t env) st = .od d st1 →
      exec (fuel + 1) (.macroexpand d env) st1 = .oexp d2 ch2 st2 →
      exec (fuel + 2) (.macroexpand (.list (.sym s :: t)) env) st
        = .oexp d2 true st2) ∧
    (∀ (fuel k : Nat) (ast : Datum) (env : Nat) (st : St) (d : Datum)
       (ch : Bool) (st1 : St),
      exec fuel (.macroexpand ast env) st = .oexp d ch st1 →
      isMacroCall st1 env d = false ∧
      exec (k + 1) (.macroexpand_single d env) st1 = .oexp d false st1) ∧
    (∀ (fuel : Nat) (xs args : List Datum) (env aenv : Nat)
       (st st1 : St) (f : String) (ch : Bool),
      exec fuel (.macroexpand (.list xs) env) st
        = .oexp (.list (.sym f :: args)) ch st1 →
      f ∉ ["def!", "defmacro!", "let*", "if", "do", "lambda", "quote",
           "quasiquote", "macroexpand", "try*"] →
      exec (fuel + 1) (.eval (.list xs) env aenv) st
        = exec fuel (.eval_application (.sym f :: args) env aenv) st1) := by
  refine ⟨?_, ?_, ?_, ?_⟩
  · intro fuel ast env st hnc
    rw [macroexpand_eq, macroexpand_single_of_not_call fuel ast env st hnc]
  · intro fuel s t env st st1 st2 p d d2 ch2 henv hm happ hrec
    have hsingle : exec (fuel + 1)
        (.macroexpand_single (.list (.sym s :: t)) env) st
        = .oexp d true st1 := by
      rw [macroexpand_single_sym_eq, henv]
      show (if p.macroFlag = true then
              match exec fuel (.apply_proc p t env) st with
              | .od d st1 => Out.oexp d true st1
              | .fail st1 => Out.fail st1
              | .spin => Out.spin
              | _ => Out.stuck
            else Out.oexp (.list (.sym s :: t)) false st)
          = Out.oexp d true st1
      rw [if_pos hm, happ]
    have hred : exec (fuel + 2)
        (.macroexpand (.list (.sym s :: t)) env) st
        = match exec (fuel + 1) (.macroexpand d env) st1 with
          | .oexp d2 _ st3 => Out.oexp d2 true st3
          | .fail st3 => Out.fail st3
          | .spin => Out.spin
          | _ => Out.stuck := by
      rw [macroexpand_eq, hsingle]
    rw [hred, hrec]
  · intro fuel k ast env st d ch st1 h
    have hnc := macroexpand_result_stable fuel ast env st d ch st1 h
    exact ⟨hnc, macroexpand_single_of_not_call k d env st1 hnc⟩
  · intro fuel xs args env aenv st st1 f ch hexp hf
    simp only [List.mem_cons, List.mem_singleton] at hf
    push_neg at hf
    obtain ⟨h1, h2, h3, h4, h5, h6, h7, h8, h9, h10, -⟩ := hf
    rw [eval_list_step_eq, hexp]
    show (if ch && !(Datum.list (.sym f :: args)).isList then
            exec fuel (.eval_ast (.list (.sym f :: args)) env) st1
          else
            if f = "def!" then
              exec fuel (.eval_def (.sym f :: args) aenv) st1
            else if f = "defmacro!" then
              exec fuel (.eval_defmacro_form (.sym f :: args) aenv) st1
            else if f = "let*" then
              exec fuel (.eval_letstar (.sym f :: args) aenv) st1
            else if f = "if" then
              match exec fuel (.eval_if (.sym f :: args) aenv) st1 with
              | .od branch st2 => exec fuel (.eval branch env aenv) st2
              | .fail st2 => .fail st2
              | .spin => .spin
              | _ => .stuck
            else if f = "do" then
              exec fuel (.eval_do (.sym f :: args) aenv) st1
            else if f = "lambda" then
              exec fuel (.eval_fnstar (.sym f :: args) aenv) st1
            else if f = "quote" then
              exec fuel (.eval_quote (.sym f :: args) aenv) st1
            else if f = "quasiquote" then
              exec fuel (.eval_quasiquote (.sym f :: args) aenv) st1
            else if f = "macroexpand" then
              exec fuel (.eval_macroexpand (.sym f :: args) aenv) st1
            else if f = "try*" then
              exec fuel (.eval_try_star (.sym f :: args) aenv) st1
            else
              exec fuel (.eval_application (.sym f :: args) env aenv) st1)
        = exec fuel (.eval_application (.sym f :: args) env aenv) st1
    rw [show (ch && !(Datum.list (.sym f :: args)).isList) = false by
          simp [Datum.isList]]
    simp only [Bool.false_eq_true, if_false]
    rw [if_neg h1, if_neg h2, if_neg h3, if_neg h4, if_neg h5, if_neg h6,
        if_neg h7, if_neg h8, if_neg h9, if_neg h10]

end Clisp

namespace Clisp

/-- Witness for `C4_macroexpand_fixpoint`: expanding `(m 42)` in a
state where `m` is the identity macro applies the macro to the
unevaluated argument and reaches the stable value `42`. -/
theorem C4_macroexpand_fixpoint_witness :
    exec 12 (.macroexpand (.list [.sym "m", .num 42]) 0) stMacro
      = .oexp (.num 42) true
          { stMacro with
            frames := stMacro.frames ++ [⟨[("x", .num 42)], some 0⟩] } :=
  C4_macroexpand_fixpoint.2.1 10 "m" [.num 42] 0 stMacro
    { stMacro with
      frames := stMacro.frames ++ [⟨[("x", .num 42)], some 0⟩] }
    { stMacro with
      frames := stMacro.frames ++ [⟨[("x", .num 42)], some 0⟩] }
    mProc (.num 42) (.num 42) false rfl rfl rfl rfl

end Clisp
